import Mathlib

/-!
Verification of the Mango bindings-resolution and registry engine
(`src/.mango/_common.py`), via a shallow embedding of its data model and
operations into Lean.  Python strings are modelled as Lean `String`
(operating on the underlying `List Char`), machine-level effects
(filesystem reads, git subprocesses) are modelled as explicit function
parameters, and Python exceptions are modelled with `Except`.
-/

/-- Whitespace characters recognised by Python `str.strip()` / `str.split()`
(restricted to the ASCII whitespace actually occurring in bindings files). -/
def isWsChar (c : Char) : Bool :=
  c = ' ' || c = '\t' || c = '\n' || c = '\r'

/-- `str.strip()` on the underlying character list. -/
def stripChars (l : List Char) : List Char :=
  ((l.dropWhile isWsChar).reverse.dropWhile isWsChar).reverse

/-- Python `str.strip()`. -/
def pyStrip (s : String) : String := String.mk (stripChars s.data)

/-- Python `str.startswith`. -/
def pyStartsWith (s pre : String) : Bool := pre.data.isPrefixOf s.data

/-- Python `str.endswith`. -/
def pyEndsWith (s suf : String) : Bool := suf.data.isSuffixOf s.data

/-- Python `str.split(c)` for a one-character separator (on char lists). -/
def splitChar (c : Char) : List Char → List (List Char)
  | [] => [[]]
  | x :: xs =>
    if x = c then [] :: splitChar c xs
    else
      match splitChar c xs with
      | [] => [[x]]
      | y :: ys => (x :: y) :: ys

/-- Python `str.split(c)` for a one-character separator. -/
def pySplitOnChar (c : Char) (s : String) : List String :=
  (splitChar c s.data).map String.mk

/-- Python `str.split(c, 1)`: the text before the first `c` and everything
after it (the whole rest when `c` is absent gives second component `[]`). -/
def splitOnceChar (c : Char) (l : List Char) : List Char × List Char :=
  (l.takeWhile (fun x => x ≠ c), (l.dropWhile (fun x => x ≠ c)).drop 1)

/-- Groups of non-whitespace characters, as produced by Python `str.split()`
with no argument. -/
def wordsOf : List Char → List (List Char)
  | [] => []
  | c :: cs =>
    if isWsChar c then wordsOf cs
    else
      match wordsOf cs with
      | [] => [[c]]
      | w :: ws =>
        match cs with
        | [] => [[c]]
        | d :: _ => if isWsChar d then [c] :: w :: ws else (c :: w) :: ws

/-- Python `str.split()` (whitespace split, empty pieces dropped). -/
def pySplitWs (s : String) : List String := (wordsOf s.data).map String.mk

/-- Python `str.removeprefix`. -/
def pyDropPre (s pre : String) : String :=
  if pyStartsWith s pre then String.mk (s.data.drop pre.data.length) else s

/-- Python `str.removesuffix` (also `re.sub` of an anchored literal suffix). -/
def pyDropSuf (s suf : String) : String :=
  if pyEndsWith s suf then String.mk (s.data.take (s.data.length - suf.data.length)) else s

/-- `os.path.basename`: the part after the last path separator. -/
def basenameStr (s : String) : String :=
  String.mk ((s.data.reverse.takeWhile (fun c => c ≠ '/')).reverse)

/-- `os.path.join` for two components (no absolute second component in any
use below except the guard, which mirrors CPython posixpath.join). -/
def osJoin (a b : String) : String :=
  if pyStartsWith b "/" then b
  else if a = "" then b
  else if pyEndsWith a "/" then a ++ b
  else a ++ "/" ++ b

/-- Left strip on character lists. -/
def lstripCh (l : List Char) : List Char := l.dropWhile isWsChar

/-- Right strip on character lists. -/
def rstripCh (l : List Char) : List Char := (l.reverse.dropWhile isWsChar).reverse

/-- Colon-joining of a chain of submodule names, as done by
`":".join(...)` in `ScriptInfo.relativeOSPath` (`_common.py:43-50`). -/
def joinC : List String → String
  | [] => ""
  | [s] => s
  | s :: rest => s ++ ":" ++ joinC rest

/-! ## Data model (`ScriptInfo`, errors, the filesystem abstraction) -/

/-- `ScriptInfo` from `src/.mango/_common.py`: one registered script and the
commands bound to it. -/
structure ScriptInfo where
  virtual_submodule_path : List String
  within_submodule_path : String
  source : Bool
  bindings : List String
deriving DecidableEq

/-- `ScriptInfo.isBoundTo`: membership of a command in the binding list. -/
def ScriptInfo.isBoundTo (s : ScriptInfo) (binding : String) : Bool :=
  s.bindings.contains binding

/-- Python exceptions raised by the embedded operations.  `fileNotFound`
models `FileNotFoundError` from `open`, `indexError` models `IndexError`
from `line.split(":")[1]` on a colon-free line, the rest model the custom
registry exceptions and `ValueError`.  `fuelExhausted` is an artifact of
bounding the recursion over the (finite, in reality) submodule tree. -/
inductive MangoErr where
  | fileNotFound (path : String)
  | indexError
  | fuelExhausted
  | valueError (msg : String)
  | itemNotFoundError (msg : String)
  | itemAlreadyExistsError (msg : String)
  | gitOperationError (msg : String)
deriving DecidableEq

deriving instance DecidableEq for Except

/-- A read-only filesystem: maps a path to the lines of the file stored
there (`none` when the file does not exist, in which case `open` raises). -/
def FS := String → Option (List String)

/-! ## Bindings Store parsing -/

/-- The second stage of `parseInstructionEntry` (`_common.py:178-190`):
parse the comment-stripped content of a line. -/
def parseEntryContent (content : String) : Option (String × Bool × List String) :=
  if content = "" || pyStartsWith content "[" || ¬ content.data.contains ':' then none
  else
    let parts := splitOnceChar ':' content.data
    let pre := pyStrip (String.mk parts.1)
    let source_entry := pyStartsWith pre "*"
    let script_name := pyStrip (if source_entry then String.mk (pre.data.drop 1) else pre)
    if script_name = "" then none
    else some (script_name, source_entry, pySplitWs (pyStrip (String.mk parts.2)))

/-- `parseInstructionEntry` (`_common.py:165-190`): parse one top-level
`.instructions` entry, tolerating comments and malformed lines.  The line
is stripped, blank/comment lines yield nothing, an inline comment is cut
off, and the remaining content goes to `parseEntryContent`. -/
def parseInstructionEntry (line : String) : Option (String × Bool × List String) :=
  let stripped_line := pyStrip line
  if stripped_line = "" || pyStartsWith stripped_line "#" then none
  else parseEntryContent (pyStrip (String.mk (stripped_line.data.takeWhile (fun c => c ≠ '#'))))

/-- The per-line loop body of `getRegisteredItems` (`_common.py:203-245`).
`resolveSub` is the recursive call made for a submodule directive (in the
source it is `getRegisteredItems` itself on the nested path); keeping it
abstract makes the export semantics provable independently of fuel. -/
def processLines (resolveSub : String → List String → Except MangoErr (List ScriptInfo))
    (mango_repo_path : String) (starting_submodule : List String) :
    List String → Except MangoErr (List ScriptInfo)
  | [] => .ok []
  | rawLine :: rest =>
    let line := pyStrip rawLine
    if pyStartsWith line "#" || line = "" then
      processLines resolveSub mango_repo_path starting_submodule rest
    else if pyStartsWith line "[" then
      if ¬ line.data.contains ']' then
        processLines resolveSub mango_repo_path starting_submodule rest
      else
        let submodule_name := String.mk ((line.data.drop 1).takeWhile (fun c => c ≠ ']'))
        let remaining := pyStrip (String.mk ((line.data.dropWhile (fun c => c ≠ ']')).drop 1))
        let sub_repo := osJoin (osJoin (osJoin mango_repo_path ".mango") ".submodules") submodule_name
        match resolveSub sub_repo (starting_submodule ++ [submodule_name]) with
        | .error e => .error e
        | .ok submodule_registry =>
          match processLines resolveSub mango_repo_path starting_submodule rest with
          | .error e => .error e
          | .ok restScripts =>
            if remaining = "*" then .ok (submodule_registry ++ restScripts)
            else
              .ok ((submodule_registry.filterMap (fun script =>
                if script.isBoundTo remaining then
                  some ⟨script.virtual_submodule_path, script.within_submodule_path,
                        script.source, [remaining]⟩
                else none)) ++ restScripts)
    else
      let fields := splitChar ':' line.data
      match fields.get? 1 with
      | none => .error .indexError
      | some second =>
        let source_policy := pyStartsWith line "*"
        let script_path :=
          if source_policy then String.mk ((fields.headD []).drop 1)
          else String.mk (fields.headD [])
        let bindings := pySplitWs (pyStrip (String.mk second))
        match processLines resolveSub mango_repo_path starting_submodule rest with
        | .error e => .error e
        | .ok restScripts =>
          .ok (ScriptInfo.mk starting_submodule script_path source_policy bindings :: restScripts)

/-- `getRegisteredItems` (`_common.py:192-245`): open the repository
bindings file and fold `processLines` over it, recursing into submodule
directives.  The `fuel` bound stands for the finite depth of the real
on-disk tree; every recursive call in the source decrements it. -/
def getRegisteredItems (fs : FS) : Nat → String → List String → Except MangoErr (List ScriptInfo)
  | 0, _, _ => .error .fuelExhausted
  | fuel + 1, mango_repo_path, starting_submodule =>
    let instructions_path := osJoin (osJoin mango_repo_path ".mango") ".instructions"
    match fs instructions_path with
    | none => .error (.fileNotFound instructions_path)
    | some lines => processLines (getRegisteredItems fs fuel) mango_repo_path starting_submodule lines

/-! ## Virtual Path Resolver -/

/-- `mapSubmodulePath` (`_common.py:138-150`): map a colon-separated chain
of submodule names to the on-disk path, appending
`.mango/.submodules/<name>` per name.  Note Python `"".split(":") == [""]`,
so the empty chain still performs one iteration with an empty name. -/
def mapSubmodulePath (submodule_virtual_path : String) (base_path : String) : String :=
  (pySplitOnChar ':' submodule_virtual_path).foldl
    (fun path submodule => osJoin (osJoin (osJoin path ".mango") ".submodules") submodule)
    base_path

/-! ## Bindings Store mutation -/

/-- `appendToTop` (`_common.py:657-674`): insert lines immediately after the
leading run of blank/comment lines. -/
def appendToTop (original : List String) (to_add : List String) : List String :=
  let insert_index :=
    (original.takeWhile (fun line =>
      pyStrip line = "" || pyStartsWith (pyStrip line) "#")).length
  original.take insert_index ++ to_add ++ original.drop insert_index

/-- The pure transform inside `bindToItem` (`_common.py:701-718`): build the
new entry line and prepend it via `appendToTop`.  (The `enactInstructionsList`
decorator supplies `lines` from the file and writes the result back.) -/
def bindToItemCore (submodule : Option String) (item : String) (bindings : List String)
    (lines : List String) : List String :=
  let submodPre := match submodule with
    | none => ""
    | some s => "[" ++ s ++ "] "
  let line := submodPre ++ item ++ ": " ++ String.intercalate " " bindings ++ "\n"
  appendToTop lines [line]

/-- The linear search in `removeInstructionBindings` (`_common.py:785-790`):
index and parse of the first line whose parsed entry names `script_name`. -/
def findEntryAux (script_name : String) : Nat → List String →
    Option (Nat × (String × Bool × List String))
  | _, [] => none
  | i, l :: ls =>
    match parseInstructionEntry l with
    | some p => if p.1 = script_name then some (i, p) else findEntryAux script_name (i + 1) ls
    | none => findEntryAux script_name (i + 1) ls

/-- Insertion into a sorted, duplicate-free list of strings. -/
def insertSorted (x : String) : List String → List String
  | [] => [x]
  | y :: ys => if x = y then y :: ys else if x ≤ y then x :: y :: ys else y :: insertSorted x ys

/-- `sorted(set(l))` from Python: sort and deduplicate. -/
def sortedDedup : List String → List String
  | [] => []
  | x :: xs => insertSorted x (sortedDedup xs)

/-- The pure transform inside `removeInstructionBindings`
(`_common.py:763-819`): validate that the entry and every requested binding
exist (unless `remove_all`), then rewrite or drop the entry line.  Raised
`ValueError`s become `.error`; quote characters of the Python messages are
omitted. -/
def removeInstructionBindingsCore (script_name : String) (bindings_to_remove : List String)
    (remove_all : Bool) (lines : List String) : Except MangoErr (List String) :=
  match findEntryAux script_name 0 lines with
  | none =>
    if remove_all then .ok lines
    else .error (.valueError ("script " ++ script_name ++ " is not registered in .instructions"))
  | some (target_index, (_, policy, existing_bindings)) =>
    let missing := bindings_to_remove.filter (fun b => ! existing_bindings.contains b)
    if (!remove_all) && (!missing.isEmpty) then
      .error (.valueError ("bindings " ++ String.intercalate ", " (sortedDedup missing) ++
        " are not registered to script " ++ script_name))
    else
      let updated_bindings :=
        if remove_all then []
        else existing_bindings.filter (fun b => ! bindings_to_remove.contains b)
      let original_line := lines.getD target_index ""
      let line_ending := if pyEndsWith original_line "\n" then "\n" else ""
      if updated_bindings.isEmpty then .ok (lines.eraseIdx target_index)
      else
        let star := if policy then "*" else ""
        .ok (lines.set target_index
          (star ++ script_name ++ ": " ++ String.intercalate " " updated_bindings ++ line_ending))

/-- The `enactInstructionsList` wrapper (`_common.py:626-655`) around
`removeInstructionBindings`: read the file lines, run the transform, and
write back only on success.  Returns the final on-disk lines plus the
raised error, if any: on error the write step is never reached, so the
file content is returned unchanged. -/
def removeInstructionBindingsFile (script_name : String) (bindings_to_remove : List String)
    (remove_all : Bool) (lines : List String) : List String × Option MangoErr :=
  match removeInstructionBindingsCore script_name bindings_to_remove remove_all lines with
  | .ok updated => (updated, none)
  | .error e => (lines, some e)

/-! ## Source Registry Manager -/

/-- The identifier pattern from the source regex (ASCII reading of
Python `^[\w\-.]+$`): nonempty, only alphanumerics, underscore, dash,
period. -/
def isValidNameChar (c : Char) : Bool :=
  c.isAlphanum || c = '_' || c = '-' || c = '.'

/-- Checks a name against the identifier pattern. -/
def isValidName (s : String) : Bool :=
  (!s.data.isEmpty) && s.data.all isValidNameChar

/-- The `type` field of `SubmoduleSourceInfo` (`Literal` in the source). -/
inductive ItemType where
  | template
  | submodule
deriving DecidableEq

/-- How the item type prints inside error messages. -/
def itemTypeStr : ItemType → String
  | .template => "template"
  | .submodule => "submodule"

/-- `SubmoduleSourceInfo` (`_common.py:82-108`). -/
structure SubmoduleSourceInfo where
  name : String
  git : String
  mode : String
  type : ItemType
deriving DecidableEq

/-- `SubmoduleSourceInfo.from_git_repo` (`_common.py:93-108`): derive the
name from `rename` or the basename, validate it against the identifier
pattern before anything else, and build a `file://` origin.
`abspath` stands for `os.path.abspath` (which depends on the process cwd). -/
def from_git_repo (abspath : String → String) (local_path : String) (ty : ItemType)
    (rename : Option String) : Except MangoErr SubmoduleSourceInfo :=
  let name := rename.getD (basenameStr local_path)
  if ¬ isValidName name then
    .error (.valueError ("Invalid submodule name " ++ name ++
      ". Must contain only alphanumeric characters, dashes, underscores, or periods."))
  else .ok (SubmoduleSourceInfo.mk name ("file://" ++ abspath local_path) "registered" ty)

/-- `gitPathFromSubmodule` (`_common.py:513-537`): URLs pass through, bare
names are validated against the identifier pattern and then looked up in
the registries (first directory containing `<name>/config` wins).
`pathExists` stands for `os.path.exists`. -/
def gitPathFromSubmodule (pathExists : String → Bool) (abspath : String → String)
    (submodule_like : String) (registries : List String) : Except MangoErr String :=
  if pyStartsWith submodule_like "file://" || pyStartsWith submodule_like "http://" ||
      pyStartsWith submodule_like "https://" || pyStartsWith submodule_like "git@" then
    .ok submodule_like
  else if ¬ isValidName submodule_like then
    .error (.itemNotFoundError ("Invalid submodule-like item " ++ submodule_like))
  else
    match registries.find? (fun registry =>
        pathExists (osJoin (osJoin registry submodule_like) "config")) with
    | some registry => .ok ("file://" ++ abspath (osJoin registry submodule_like))
    | none =>
      .error (.itemNotFoundError ("Submodule item " ++ submodule_like ++
        " not found in registries"))

/-- `getUserRegistryPath` (`_common.py:408-429`), with `homeFolder()`
passed in as `home`. -/
def getUserRegistryPath (home : String) (item_type : ItemType) : String :=
  let home_mango := osJoin home ".mango"
  match item_type with
  | .template => osJoin home_mango ".templates.registry"
  | .submodule => osJoin home_mango ".submodules.registry"

/-- `registerSubmodule` (`_common.py:431-461`).  The filesystem is modelled
as a map from paths to abstract slot contents; `cloneOutcome` is the Git
Collaborator result of `gitCloneBare source_info.git item_path`
(`.error stderr` on a failed clone, `.ok contents` for the cloned bytes).
Directory creation is abstracted away (it does not touch any occupied
slot).  Returns the filesystem after the call together with the result. -/
def registerSubmodule (fs : String → Option String) (cloneOutcome : Except String String)
    (home : String) (source_info : SubmoduleSourceInfo) (item_name : String) :
    (String → Option String) × Except MangoErr String :=
  let registry_path := getUserRegistryPath home source_info.type
  let item_path := osJoin registry_path item_name
  if (fs item_path).isSome then
    (fs, .error (.itemAlreadyExistsError (itemTypeStr source_info.type ++ " " ++ item_name ++
      " already exists in registry " ++ registry_path)))
  else
    match cloneOutcome with
    | .error stderr =>
      (fs, .error (.gitOperationError ("Failed to register " ++ itemTypeStr source_info.type ++
        " " ++ item_name ++ ": " ++ "Failed to clone repository " ++ source_info.git ++ ": " ++
        stderr)))
    | .ok contents => (fun p => if p = item_path then some contents else fs p, .ok item_path)

/-- `gitBasename` (`_common.py:921-925`): strip trailing slashes, strip a
final `.git`, take the basename. -/
def gitBasename (git : String) : String :=
  let g1 := String.mk ((git.data.reverse.dropWhile (fun c => c = '/')).reverse)
  basenameStr (pyDropSuf g1 ".git")

/-- The externally visible effect chosen by `installSubmodule`: either a
recursive directory copy (`shutil.copytree`, no git involved) or a
recursive `git clone`. -/
inductive InstallAction where
  | copyTree (src : String) (dest : String)
  | gitClone (url : String) (dest : String)
deriving DecidableEq

/-- The dispatch inside `installSubmodule` (`_common.py:336-378`): compute
the destination slot under `<repo>/.mango/.submodules/`, then copy for any
origin that is not `http(s)://` or `git@` (after stripping an optional
`file://` and `.git`), and clone otherwise. -/
def installSubmoduleAction (abspath : String → String) (repo_path : String)
    (git_path : String) (rename_to : Option String) : InstallAction :=
  let submodule_name := gitBasename git_path
  let submodules_dir := osJoin (osJoin repo_path ".mango") ".submodules"
  let submodule_path := osJoin submodules_dir (rename_to.getD submodule_name)
  if ¬ (pyStartsWith git_path "http://" || pyStartsWith git_path "https://" ||
        pyStartsWith git_path "git@") then
    let local_path := pyDropSuf (pyDropPre git_path "file://") ".git"
    .copyTree (abspath local_path) submodule_path
  else .gitClone git_path submodule_path

/-- Scenario for the spec example: root exports `[lib] build`, while `lib`
binds `compile.sh` to `build` and `b`. -/
def fsExportOne : FS := fun p =>
  if p = "R/.mango/.instructions" then some ["[lib] build"]
  else if p = "R/.mango/.submodules/lib/.mango/.instructions" then some ["compile.sh: build b"]
  else none

/-- Scenario with a two-name export list: root says `[lib] build test`,
while `lib` binds `compile.sh` to `build` and `other.sh` to `test`. -/
def fsExportTwo : FS := fun p =>
  if p = "R/.mango/.instructions" then some ["[lib] build test"]
  else if p = "R/.mango/.submodules/lib/.mango/.instructions" then
    some ["compile.sh: build", "other.sh: test"]
  else none

/-- Scenario with a directive for a submodule that does not exist on disk,
followed by an ordinary script entry. -/
def fsGhost : FS := fun p =>
  if p = "R/.mango/.instructions" then some ["[ghost] *", "s.sh: a"] else none

/-- Scenario whose bindings file holds a single line with no colon. -/
def fsNoColon : FS := fun p =>
  if p = "R/.mango/.instructions" then some ["foo"] else none

/-! ## Sanity checks of the Python string model -/

example : pyStrip "  a b \n" = "a b" := by decide
example : pySplitOnChar ':' "a:b c:d" = ["a", "b c", "d"] := by decide
example : pySplitOnChar ':' "" = [""] := by decide
example : pySplitWs " a  bc " = ["a", "bc"] := by decide
example : splitOnceChar ':' "ab:cd:e".data = ("ab".data, "cd:e".data) := by decide
example : osJoin "a" "" = "a/" := by decide
example : osJoin (osJoin "." ".mango") ".submodules" = "./.mango/.submodules" := by decide
example : basenameStr "a/b/c.git" = "c.git" := by decide
example : pyDropSuf (pyDropPre "file:///x/y.git" "file://") ".git" = "/x/y" := by decide
example : parseInstructionEntry "*s: a b # c" = some ("s", true, ["a", "b"]) := by decide
example : gitBasename "https://host/a/lib.git" = "lib" := by decide

/-- C1 counterexample: with the two-name export list `[lib] build test`,
the claim predicts `compile.sh` is re-exported as `build` and `other.sh`
as `test`; the code instead treats the whole text `build test` as one
command name, matches nothing, and the root resolves to the empty list —
even though `lib` itself resolves both scripts. -/
theorem exportSpec_list_counterexample :
    getRegisteredItems fsExportTwo 3 "R" [] = .ok [] ∧
    getRegisteredItems fsExportTwo 2 "R/.mango/.submodules/lib" ["lib"] =
      .ok [ScriptInfo.mk ["lib"] "compile.sh" false ["build"],
           ScriptInfo.mk ["lib"] "other.sh" false ["test"]] := by
  exact ⟨by decide, by decide⟩

/-- C2 counterexample: the directive `[ghost] *` for a submodule with no
directory on disk makes `getRegisteredItems` raise `FileNotFoundError`
(the recursive call opens the absent nested bindings file); the claim
predicts zero bindings, no error, and normal resolution of the remaining
`s.sh: a` line. -/
theorem missing_submodule_counterexample :
    getRegisteredItems fsGhost 3 "R" [] =
      .error (.fileNotFound "R/.mango/.submodules/ghost/.mango/.instructions") := by
  decide

/-- C4 (confirmed): with `[lib] build` at the root and `lib` binding
`compile.sh` to both `build` and `b`, `resolveAll` yields exactly one
binding for `compile.sh`, re-aliased to `build` alone — the original
alias `b` is not carried through. -/
theorem export_realias_single_binding :
    getRegisteredItems fsExportOne 3 "R" [] =
      .ok [ScriptInfo.mk ["lib"] "compile.sh" false ["build"]] := by
  decide

/-- C6 counterexample: a line with no separator token does not parse to
nothing in the resolver's own parse — `getRegisteredItems` raises an
`IndexError` on `line.split(":")[1]`, refuting the never-raises claim. -/
theorem parse_totality_counterexample :
    getRegisteredItems fsNoColon 2 "R" [] = .error .indexError := by
  decide

/-- C3 counterexample: after `bindCommands(s, [a,b])` then
`bindCommands(s, [b,c])` on an initially empty file, the file does not
hold a single entry for `s` — it holds two. -/
theorem bindCommands_union_counterexample :
    (((bindToItemCore none "s" ["b", "c"] (bindToItemCore none "s" ["a", "b"] [])).filterMap
        parseInstructionEntry).filter (fun p => p.1 = "s")).length ≠ 1 := by
  decide

/-- C3 amended: `bindToItem` performs no union with an existing entry.
Each call prepends one fresh entry line immediately after the leading
blank/comment preamble, so the two calls leave two separate entries for
`s`, the most recent (`b c`) on top, and the resolver-visible parse
reports both. -/
theorem bindCommands_prepends_new_entry :
    bindToItemCore none "s" ["b", "c"] (bindToItemCore none "s" ["a", "b"] []) =
      ["s: b c\n", "s: a b\n"] ∧
    ((bindToItemCore none "s" ["b", "c"] (bindToItemCore none "s" ["a", "b"] [])).filterMap
        parseInstructionEntry) =
      [("s", false, ["b", "c"]), ("s", false, ["a", "b"])] ∧
    bindToItemCore none "s" ["a"] ["# preamble\n", "\n", "x: y\n"] =
      ["# preamble\n", "\n", "s: a\n", "x: y\n"] := by
  exact ⟨by decide, by decide, by decide⟩

/-- C5 (confirmed): with `remove_all = false`, `removeInstructionBindings`
raises a `ValueError` both when no entry for the script exists (the
NotRegistered-style message) and when some requested command name is not
among the entry bindings (the UnknownBinding-style message); in both
cases the error precedes the write step of the `enactInstructionsList`
wrapper, so the file lines are returned byte-for-byte unchanged. -/
theorem removeInstructionBindings_validation_unmodified
    (lines : List String) (script_name : String) (toRemove : List String)
    (h : findEntryAux script_name 0 lines = none ∨
      ∃ i n policy bs, findEntryAux script_name 0 lines = some (i, (n, policy, bs)) ∧
        ∃ b ∈ toRemove, b ∉ bs) :
    ∃ msg, removeInstructionBindingsFile script_name toRemove false lines =
        (lines, some (.valueError msg)) ∧
      (findEntryAux script_name 0 lines = none →
        msg = "script " ++ script_name ++ " is not registered in .instructions") := by
  rcases h with h | ⟨i, n, policy, bs, hfind, b, hb, hbs⟩
  · exact ⟨_, by simp [removeInstructionBindingsFile, removeInstructionBindingsCore, h],
      fun _ => rfl⟩
  · have hex : ∃ x ∈ toRemove, x ∉ bs := ⟨b, hb, hbs⟩
    refine ⟨"bindings " ++
        String.intercalate ", " (sortedDedup (toRemove.filter (fun x => ! bs.contains x))) ++
        " are not registered to script " ++ script_name, ?_, fun hnone => ?_⟩
    · simp [removeInstructionBindingsFile, removeInstructionBindingsCore, hfind, hex]
    · rw [hfind] at hnone
      exact absurd hnone (by simp)

/-- Closed witness for the C5 theorem: unbinding from an unregistered
script name fails with the NotRegistered-style `ValueError` and leaves
the file lines unchanged. -/
theorem removeInstructionBindings_validation_unmodified_witness :
    ∃ msg, removeInstructionBindingsFile "t" ["x"] false ["s: a b\n"] =
        (["s: a b\n"], some (.valueError msg)) ∧
      (findEntryAux "t" 0 ["s: a b\n"] = none →
        msg = "script " ++ "t" ++ " is not registered in .instructions") :=
  removeInstructionBindings_validation_unmodified ["s: a b\n"] "t" ["x"]
    (Or.inl (by decide))

/-- C7 (confirmed): a name failing the identifier pattern makes
`SubmoduleSourceInfo.from_git_repo` fail with the `ValueError` and makes
`gitPathFromSubmodule` (for a non-URL argument) fail with the validation
`ItemNotFoundError`; both conclusions are independent of the filesystem
(`pathExists`), of `abspath`, and of the registry list, so the failure
happens before any registry lookup, filesystem mutation, or network
action. -/
theorem invalid_name_validation_first :
    (∀ (abspath : String → String) (local_path : String) (ty : ItemType)
        (rename : Option String),
      isValidName (rename.getD (basenameStr local_path)) = false →
        from_git_repo abspath local_path ty rename =
          .error (.valueError ("Invalid submodule name " ++
            rename.getD (basenameStr local_path) ++
            ". Must contain only alphanumeric characters, dashes, underscores, or periods."))) ∧
    (∀ (pathExists : String → Bool) (abspath : String → String) (submodule_like : String)
        (registries : List String),
      pyStartsWith submodule_like "file://" = false →
      pyStartsWith submodule_like "http://" = false →
      pyStartsWith submodule_like "https://" = false →
      pyStartsWith submodule_like "git@" = false →
      isValidName submodule_like = false →
        gitPathFromSubmodule pathExists abspath submodule_like registries =
          .error (.itemNotFoundError ("Invalid submodule-like item " ++ submodule_like))) := by
  constructor
  · intro abspath local_path ty rename h
    simp [from_git_repo, h]
  · intro pathExists abspath submodule_like registries h1 h2 h3 h4 h5
    simp [gitPathFromSubmodule, h1, h2, h3, h4, h5]

/-- Closed witness for the C7 theorem: a name with a path separator and
one with shell metacharacters both fail validation. -/
theorem invalid_name_validation_first_witness :
    from_git_repo id "x" .submodule (some "bad/name") =
      .error (.valueError ("Invalid submodule name " ++ "bad/name" ++
        ". Must contain only alphanumeric characters, dashes, underscores, or periods.")) ∧
    gitPathFromSubmodule (fun _ => true) id "bad;rm -rf" ["reg"] =
      .error (.itemNotFoundError ("Invalid submodule-like item " ++ "bad;rm -rf")) :=
  ⟨invalid_name_validation_first.1 id "x" .submodule (some "bad/name") (by decide),
   invalid_name_validation_first.2 (fun _ => true) id "bad;rm -rf" ["reg"]
     (by decide) (by decide) (by decide) (by decide) (by decide)⟩

/-- C8 (confirmed): `registerSubmodule` fails with `AlreadyExists` when
the name occupies a slot in the kind-specific registry directory, in
which case the returned filesystem is the input one (the slot contents
are byte-identical); otherwise it clones `source.origin` into the slot,
surfacing `GitOperationError` with the collaborator diagnostic text on a
failed clone and storing the cloned contents at the slot on success. -/
theorem registerSubmodule_collision_and_clone
    (fs : String → Option String) (cloneOutcome : Except String String)
    (home : String) (src : SubmoduleSourceInfo) (item_name : String) :
    (∀ contents, fs (osJoin (getUserRegistryPath home src.type) item_name) = some contents →
      registerSubmodule fs cloneOutcome home src item_name =
        (fs, .error (.itemAlreadyExistsError (itemTypeStr src.type ++ " " ++ item_name ++
          " already exists in registry " ++ getUserRegistryPath home src.type)))) ∧
    (fs (osJoin (getUserRegistryPath home src.type) item_name) = none →
      ∀ stderr, cloneOutcome = .error stderr →
        registerSubmodule fs cloneOutcome home src item_name =
          (fs, .error (.gitOperationError ("Failed to register " ++ itemTypeStr src.type ++
            " " ++ item_name ++ ": " ++ "Failed to clone repository " ++ src.git ++ ": " ++
            stderr)))) ∧
    (fs (osJoin (getUserRegistryPath home src.type) item_name) = none →
      ∀ contents, cloneOutcome = .ok contents →
        (registerSubmodule fs cloneOutcome home src item_name).1
            (osJoin (getUserRegistryPath home src.type) item_name) = some contents ∧
          (registerSubmodule fs cloneOutcome home src item_name).2 =
            .ok (osJoin (getUserRegistryPath home src.type) item_name)) := by
  refine ⟨fun contents h => ?_, fun h stderr hc => ?_, fun h contents hc => ?_⟩
  · simp [registerSubmodule, h]
  · simp [registerSubmodule, h, hc]
  · simp [registerSubmodule, h, hc]

/-- Closed witness for the C8 theorem at a concrete occupied registry. -/
theorem registerSubmodule_collision_and_clone_witness :
    registerSubmodule (fun p => if p = "/home/u/.mango/.submodules.registry/lib" then
        some "OLD" else none) (.ok "NEW") "/home/u"
      (SubmoduleSourceInfo.mk "lib" "file:///src/lib" "registered" .submodule) "lib" =
      ((fun p => if p = "/home/u/.mango/.submodules.registry/lib" then some "OLD" else none),
        .error (.itemAlreadyExistsError ("submodule" ++ " " ++ "lib" ++
          " already exists in registry " ++ "/home/u/.mango/.submodules.registry"))) := by
  have h := (registerSubmodule_collision_and_clone
    (fun p => if p = "/home/u/.mango/.submodules.registry/lib" then some "OLD" else none)
    (.ok "NEW") "/home/u"
    (SubmoduleSourceInfo.mk "lib" "file:///src/lib" "registered" .submodule) "lib").1
    "OLD" (by decide)
  simpa using h

/-- C10 (confirmed): `installSubmodule` dispatches on the origin prefix
only.  Origins not starting with `http://`, `https://`, or `git@` —
including every `file://` URL, whatever follows the scheme — are
installed by a recursive directory copy of the origin with `file://`
and a trailing `.git` stripped, with no git invocation; remote-prefixed
origins are installed by a recursive git clone.  Either way the
destination is `<repo>/.mango/.submodules/<rename-or-basename>`. -/
theorem installSubmodule_dispatch
    (abspath : String → String) (repo_path git_path : String) (rename_to : Option String) :
    (pyStartsWith git_path "http://" = false → pyStartsWith git_path "https://" = false →
      pyStartsWith git_path "git@" = false →
      installSubmoduleAction abspath repo_path git_path rename_to =
        .copyTree (abspath (pyDropSuf (pyDropPre git_path "file://") ".git"))
          (osJoin (osJoin (osJoin repo_path ".mango") ".submodules")
            (rename_to.getD (gitBasename git_path)))) ∧
    ((pyStartsWith git_path "http://" = true ∨ pyStartsWith git_path "https://" = true ∨
        pyStartsWith git_path "git@" = true) →
      installSubmoduleAction abspath repo_path git_path rename_to =
        .gitClone git_path
          (osJoin (osJoin (osJoin repo_path ".mango") ".submodules")
            (rename_to.getD (gitBasename git_path)))) ∧
    (∀ p, pyStartsWith ("file://" ++ p) "http://" = false ∧
      pyStartsWith ("file://" ++ p) "https://" = false ∧
      pyStartsWith ("file://" ++ p) "git@" = false) := by
  refine ⟨fun h1 h2 h3 => ?_, fun h => ?_, fun p => ⟨rfl, rfl, rfl⟩⟩
  · simp [installSubmoduleAction, h1, h2, h3]
  · rcases h with h | h | h <;> simp [installSubmoduleAction, h]

/-- Closed witness for the C10 theorem: a bare local path is copied, a
remote https URL is cloned, both landing in the submodules folder. -/
theorem installSubmodule_dispatch_witness :
    installSubmoduleAction id "R" "/src/lib.git" none =
      .copyTree "/src/lib" "R/.mango/.submodules/lib" ∧
    installSubmoduleAction id "R" "https://host/lib.git" (some "renamed") =
      .gitClone "https://host/lib.git" "R/.mango/.submodules/renamed" := by
  constructor
  · have h := (installSubmodule_dispatch id "R" "/src/lib.git" none).1
      (by decide) (by decide) (by decide)
    simpa using h
  · have h := (installSubmodule_dispatch id "R" "https://host/lib.git" (some "renamed")).2.1
      (Or.inr (Or.inl (by decide)))
    simpa using h

/-! ## Auxiliary lemmas about Python-style stripping and splitting -/

theorem stripChars_eq_rstrip_lstrip (l : List Char) :
    stripChars l = rstripCh (lstripCh l) := rfl

theorem pyStrip_data (s : String) : (pyStrip s).data = stripChars s.data := rfl

theorem mk_data_eta (s : String) : String.mk s.data = s := rfl

theorem splitChar_of_no_sep {c : Char} : ∀ {l : List Char}, c ∉ l → splitChar c l = [l]
  | [], _ => rfl
  | x :: xs, h => by
    have hx : ¬ x = c := fun he => h (he ▸ List.mem_cons_self x xs)
    have ih := splitChar_of_no_sep (l := xs) (fun hm => h (List.mem_cons_of_mem _ hm))
    simp [splitChar, hx, ih]

theorem splitChar_append {c : Char} : ∀ {a : List Char} (b : List Char), c ∉ a →
    splitChar c (a ++ c :: b) = a :: splitChar c b
  | [], b, _ => by simp [splitChar]
  | x :: xs, b, h => by
    have hx : ¬ x = c := fun he => h (he ▸ List.mem_cons_self x xs)
    have ih := splitChar_append (a := xs) b (fun hm => h (List.mem_cons_of_mem _ hm))
    simp [splitChar, hx, ih]

theorem dropWhile_append_of_eq_nil {p : Char → Bool} :
    ∀ {a : List Char} (b : List Char), a.dropWhile p = [] →
      (a ++ b).dropWhile p = b.dropWhile p
  | [], _, _ => rfl
  | x :: xs, b, h => by
    by_cases hx : p x = true
    · have hxs : xs.dropWhile p = [] := by simpa [List.dropWhile_cons, hx] using h
      simpa [List.dropWhile_cons, hx] using dropWhile_append_of_eq_nil b hxs
    · simp [List.dropWhile_cons, hx] at h

theorem dropWhile_append_of_eq_cons {p : Char → Bool} :
    ∀ {a : List Char} (b : List Char) {x : Char} {t : List Char}, a.dropWhile p = x :: t →
      (a ++ b).dropWhile p = x :: (t ++ b)
  | [], _, _, _, h => by cases h
  | y :: ys, b, x, t, h => by
    by_cases hy : p y = true
    · have hys : ys.dropWhile p = x :: t := by simpa [List.dropWhile_cons, hy] using h
      simpa [List.dropWhile_cons, hy] using dropWhile_append_of_eq_cons b hys
    · have hy2 : p y = false := by simpa using hy
      have h2 : y :: ys = x :: t := by simpa [List.dropWhile_cons, hy2] using h
      injection h2 with h3 h4
      subst h3
      subst h4
      simp [List.dropWhile_cons, hy2]

theorem dropWhile_head_false {p : Char → Bool} :
    ∀ {a : List Char} {x : Char} {t : List Char}, a.dropWhile p = x :: t → p x = false
  | [], _, _, h => by cases h
  | y :: ys, x, t, h => by
    by_cases hy : p y = true
    · exact dropWhile_head_false (by simpa [List.dropWhile_cons, hy] using h)
    · have : y = x := (List.cons.inj (by simpa [List.dropWhile_cons, hy] using h)).1
      subst this
      simpa using hy

theorem dropWhile_self_idem (p : Char → Bool) (l : List Char) :
    (l.dropWhile p).dropWhile p = l.dropWhile p := by
  cases h : l.dropWhile p with
  | nil => simp
  | cons x t =>
    have hx := dropWhile_head_false h
    simp [List.dropWhile_cons, hx]

theorem rstripCh_append_nonws {m : Char} (hm : isWsChar m = false) (a b : List Char) :
    rstripCh (a ++ m :: b) = a ++ m :: rstripCh b := by
  unfold rstripCh
  rw [List.reverse_append]
  cases hcase : b.reverse.dropWhile isWsChar with
  | nil =>
    rw [show (m :: b).reverse = b.reverse ++ [m] from by simp]
    rw [List.append_assoc, dropWhile_append_of_eq_nil _ hcase]
    simp [List.dropWhile_cons, hm]
  | cons x t =>
    rw [show (m :: b).reverse = b.reverse ++ [m] from by simp]
    rw [List.append_assoc, dropWhile_append_of_eq_cons _ hcase]
    simp

theorem rstripCh_cons_nonws {x : Char} (hx : isWsChar x = false) (b : List Char) :
    rstripCh (x :: b) = x :: rstripCh b := by
  simpa using rstripCh_append_nonws hx [] b

theorem rstripCh_idem (l : List Char) : rstripCh (rstripCh l) = rstripCh l := by
  unfold rstripCh
  rw [List.reverse_reverse, dropWhile_self_idem]

theorem stripChars_cons_nonws {x : Char} (hx : isWsChar x = false) (l : List Char) :
    stripChars (x :: l) = x :: rstripCh l := by
  rw [stripChars_eq_rstrip_lstrip]
  unfold lstripCh
  rw [List.dropWhile_cons, if_neg (by simp [hx]), rstripCh_cons_nonws hx]

theorem takeWhile_ne_hash_append : ∀ {a : List Char} (b : List Char), '#' ∉ a →
    (a ++ '#' :: b).takeWhile (fun c => c ≠ '#') = a
  | [], b, _ => by
    show List.takeWhile _ ('#' :: b) = []
    rw [List.takeWhile_cons, if_neg (by simp)]
  | x :: xs, b, h => by
    have hx : x ≠ '#' := fun he => h (he ▸ List.mem_cons_self x xs)
    have ih := takeWhile_ne_hash_append (a := xs) b (fun hm => h (List.mem_cons_of_mem _ hm))
    show List.takeWhile _ (x :: (xs ++ '#' :: b)) = x :: xs
    rw [List.takeWhile_cons, if_pos (by exact decide_eq_true hx), ih]

theorem takeWhile_ne_hash_of_no_hash : ∀ {a : List Char}, '#' ∉ a →
    a.takeWhile (fun c => c ≠ '#') = a
  | [], _ => rfl
  | x :: xs, h => by
    have hx : x ≠ '#' := fun he => h (he ▸ List.mem_cons_self x xs)
    have ih := takeWhile_ne_hash_of_no_hash (a := xs) (fun hm => h (List.mem_cons_of_mem _ hm))
    rw [List.takeWhile_cons, if_pos (by exact decide_eq_true hx), ih]

theorem mem_of_mem_stripChars {a : Char} {l : List Char} (h : a ∈ stripChars l) : a ∈ l := by
  unfold stripChars at h
  rw [List.mem_reverse] at h
  have h2 := (List.dropWhile_sublist _).subset h
  rw [List.mem_reverse] at h2
  exact (List.dropWhile_sublist _).subset h2

theorem contains_eq_false_of_not_mem {a : Char} {l : List Char} (h : a ∉ l) :
    l.contains a = false := by
  cases hc : l.contains a
  · rfl
  · exact absurd (List.mem_of_elem_eq_true hc) h

theorem mem_of_mem_parse_content {a : Char} {l : String}
    (h : a ∈ (pyStrip (String.mk ((pyStrip l).data.takeWhile (fun c => c ≠ '#')))).data) :
    a ∈ l.data := by
  rw [pyStrip_data] at h
  have h2 := mem_of_mem_stripChars h
  have h3 := (List.takeWhile_sublist _).subset h2
  rw [pyStrip_data] at h3
  exact mem_of_mem_stripChars h3

theorem pyStartsWith_mk_cons_single (c x : Char) (t : List Char) :
    pyStartsWith (String.mk (x :: t)) (String.mk [c]) = (c == x) := by
  simp [pyStartsWith, List.isPrefixOf]

theorem parse_eq_of_same_strip {l₁ l₂ : String} (h : pyStrip l₁ = pyStrip l₂) :
    parseInstructionEntry l₁ = parseInstructionEntry l₂ := by
  unfold parseInstructionEntry
  rw [h]

theorem parse_none_of_blank (l : String) (h : pyStrip l = "") :
    parseInstructionEntry l = none := by
  simp [parseInstructionEntry, h]

theorem parse_none_of_comment (l : String) (h : pyStartsWith (pyStrip l) "#" = true) :
    parseInstructionEntry l = none := by
  simp [parseInstructionEntry, h]

theorem parse_none_of_no_colon (l : String) (h : ':' ∉ l.data) :
    parseInstructionEntry l = none := by
  have hc : (pyStrip (String.mk ((pyStrip l).data.takeWhile (fun c => c ≠ '#')))).data.contains
      ':' = false :=
    contains_eq_false_of_not_mem (fun hm => h (mem_of_mem_parse_content hm))
  unfold parseInstructionEntry
  dsimp only
  split
  · rfl
  · unfold parseEntryContent
    split
    · rfl
    · rename_i hcond
      exfalso
      apply hcond
      rw [hc]
      simp

theorem parse_reduces (l : String) {y : Char} {t : List Char}
    (hl : pyStrip l = String.mk (y :: t)) (hy : y ≠ '#') :
    parseInstructionEntry l =
      parseEntryContent (pyStrip (String.mk ((y :: t).takeWhile (fun c => c ≠ '#')))) := by
  unfold parseInstructionEntry
  rw [hl]
  rw [if_neg ?hcond]
  case hcond =>
    have e1 : (String.mk (y :: t) = "") = False := by
      simp [String.ext_iff]
    have s1 : pyStartsWith (String.mk (y :: t)) "#" = false := by
      rw [show ("#" : String) = String.mk ['#'] from rfl, pyStartsWith_mk_cons_single]
      exact beq_eq_false_iff_ne.mpr (fun he => hy he.symm)
    simp [e1, s1]

theorem parseEntryContent_none_of_empty_lhs (W : List Char) :
    parseEntryContent (String.mk (':' :: W)) = none := by
  unfold parseEntryContent
  rw [if_neg ?hcond]
  case hcond =>
    have hcontains : (String.mk (':' :: W)).data.contains ':' = true := by
      simp [List.contains_cons]
    have s1 : pyStartsWith (String.mk (':' :: W)) "[" = false := by
      rw [show ("[" : String) = String.mk ['['] from rfl, pyStartsWith_mk_cons_single]
      decide
    simp [String.ext_iff, s1, hcontains]
  rfl

theorem parseEntryContent_none_of_star_colon (W : List Char) :
    parseEntryContent (String.mk ('*' :: ':' :: W)) = none := by
  unfold parseEntryContent
  rw [if_neg ?hcond]
  case hcond =>
    have hcontains : (String.mk ('*' :: ':' :: W)).data.contains ':' = true := by
      simp [List.contains_cons]
    have s1 : pyStartsWith (String.mk ('*' :: ':' :: W)) "[" = false := by
      rw [show ("[" : String) = String.mk ['['] from rfl, pyStartsWith_mk_cons_single]
      decide
    simp [String.ext_iff, s1, hcontains]
  rfl

theorem mem_of_mem_rstripCh {a : Char} {l : List Char} (h : a ∈ rstripCh l) : a ∈ l := by
  unfold rstripCh at h
  rw [List.mem_reverse] at h
  have h2 := (List.dropWhile_sublist _).subset h
  rwa [List.mem_reverse] at h2

theorem pyStrip_mk_cons_nonws {x : Char} (hx : isWsChar x = false) (Y : List Char) :
    pyStrip (String.mk (x :: Y)) = String.mk (x :: rstripCh Y) := by
  unfold pyStrip
  rw [show (String.mk (x :: Y)).data = x :: Y from rfl, stripChars_cons_nonws hx]

theorem parse_append_comment (l cm : String) (h : '#' ∉ l.data) :
    parseInstructionEntry (l ++ "#" ++ cm) = parseInstructionEntry l := by
  have hdata : (l ++ "#" ++ cm).data = l.data ++ '#' :: cm.data := by
    simp [String.data_append]
  cases hA : l.data.dropWhile isWsChar with
  | nil =>
    have hL : pyStrip (l ++ "#" ++ cm) = String.mk ('#' :: rstripCh cm.data) := by
      unfold pyStrip
      rw [hdata, stripChars_eq_rstrip_lstrip]
      unfold lstripCh
      rw [dropWhile_append_of_eq_nil _ hA, List.dropWhile_cons, if_neg (by decide),
        rstripCh_cons_nonws (by decide)]
    have hstart : pyStartsWith (pyStrip (l ++ "#" ++ cm)) "#" = true := by
      rw [hL, show ("#" : String) = String.mk ['#'] from rfl, pyStartsWith_mk_cons_single]
      decide
    have hR : pyStrip l = "" := by
      show String.mk (stripChars l.data) = ""
      rw [stripChars_eq_rstrip_lstrip]
      unfold lstripCh
      rw [hA]
      rfl
    rw [parse_none_of_comment _ hstart, parse_none_of_blank _ hR]
  | cons y t =>
    have hy_ws : isWsChar y = false := dropWhile_head_false hA
    have hsub : ∀ z ∈ y :: t, z ∈ l.data := fun z hz =>
      (List.dropWhile_sublist _).subset (hA ▸ hz)
    have hy_hash : y ≠ '#' := fun he => h (he ▸ hsub y (List.mem_cons_self _ _))
    have hnohash : '#' ∉ y :: t := fun hm => h (hsub _ hm)
    have hnohash_t : '#' ∉ t := fun hm => hnohash (List.mem_cons_of_mem _ hm)
    have hL : pyStrip (l ++ "#" ++ cm) = String.mk (y :: (t ++ '#' :: rstripCh cm.data)) := by
      unfold pyStrip
      rw [hdata, stripChars_eq_rstrip_lstrip]
      unfold lstripCh
      rw [dropWhile_append_of_eq_cons _ hA,
        show y :: (t ++ '#' :: cm.data) = (y :: t) ++ '#' :: cm.data from rfl,
        rstripCh_append_nonws (by decide) (y :: t) cm.data]
      rfl
    have hR : pyStrip l = String.mk (y :: rstripCh t) := by
      unfold pyStrip
      rw [stripChars_eq_rstrip_lstrip]
      unfold lstripCh
      rw [hA, rstripCh_cons_nonws hy_ws]
    have ht1 : (y :: (t ++ '#' :: rstripCh cm.data)).takeWhile (fun ch => ch ≠ '#') = y :: t :=
      takeWhile_ne_hash_append (a := y :: t) (rstripCh cm.data) hnohash
    have hnohash_rt : '#' ∉ y :: rstripCh t := by
      intro hm
      rcases List.mem_cons.mp hm with he | hm2
      · exact hy_hash he.symm
      · exact hnohash_t (mem_of_mem_rstripCh hm2)
    have ht2 : (y :: rstripCh t).takeWhile (fun ch => ch ≠ '#') = y :: rstripCh t :=
      takeWhile_ne_hash_of_no_hash hnohash_rt
    rw [parse_reduces _ hL hy_hash, parse_reduces _ hR hy_hash, ht1, ht2]
    congr 1
    rw [pyStrip_mk_cons_nonws hy_ws, pyStrip_mk_cons_nonws hy_ws, rstripCh_idem]

theorem parse_none_of_colon_lead (rest : String) :
    parseInstructionEntry (":" ++ rest) = none ∧
    parseInstructionEntry ("*:" ++ rest) = none := by
  constructor
  · have hs : pyStrip (":" ++ rest) = String.mk (':' :: rstripCh rest.data) := by
      unfold pyStrip
      rw [show (":" ++ rest).data = ':' :: rest.data from by simp [String.data_append],
        stripChars_cons_nonws (by decide)]
    rw [parse_reduces _ hs (by decide),
      show (':' :: rstripCh rest.data).takeWhile (fun ch => ch ≠ '#') =
        ':' :: (rstripCh rest.data).takeWhile (fun ch => ch ≠ '#') from by
          rw [List.takeWhile_cons, if_pos (by decide)],
      pyStrip_mk_cons_nonws (by decide)]
    exact parseEntryContent_none_of_empty_lhs _
  · have hs : pyStrip ("*:" ++ rest) = String.mk ('*' :: ':' :: rstripCh rest.data) := by
      unfold pyStrip
      rw [show ("*:" ++ rest).data = '*' :: ':' :: rest.data from by simp [String.data_append],
        stripChars_cons_nonws (by decide), rstripCh_cons_nonws (by decide)]
    rw [parse_reduces _ hs (by decide),
      show ('*' :: ':' :: rstripCh rest.data).takeWhile (fun ch => ch ≠ '#') =
        '*' :: ':' :: (rstripCh rest.data).takeWhile (fun ch => ch ≠ '#') from by
          rw [List.takeWhile_cons, if_pos (by decide), List.takeWhile_cons,
            if_pos (by decide)],
      pyStrip_mk_cons_nonws (by decide), rstripCh_cons_nonws (by decide)]
    exact parseEntryContent_none_of_star_colon _

theorem processLines_indexError
    (resolveSub : String → List String → Except MangoErr (List ScriptInfo))
    (repo : String) (chain : List String) (l : String) (rest : List String)
    (h1 : pyStrip l ≠ "") (h2 : pyStartsWith (pyStrip l) "#" = false)
    (h3 : pyStartsWith (pyStrip l) "[" = false) (h4 : ':' ∉ (pyStrip l).data) :
    processLines resolveSub repo chain (l :: rest) = .error .indexError := by
  have hsplit : splitChar ':' (pyStrip l).data = [(pyStrip l).data] := splitChar_of_no_sep h4
  unfold processLines
  dsimp only
  rw [if_neg ?c1, if_neg ?c2]
  case c1 => simp [h1, h2]
  case c2 => simp [h3]
  rw [hsplit]
  rfl

/-- C6 amended: `parseInstructionEntry` is total and never raises — blank
lines and comment-marker lines parse to nothing, an inline comment
appended after a hash-free line is stripped before parsing, a line with
no colon parses to nothing, and a line whose left-hand side is empty
after stripping the policy marker parses to nothing.  The resolver's own
parse (`getRegisteredItems` / `processLines`) is NOT total, however: a
stripped line that is non-blank, not a comment, not a submodule
directive, and has no colon raises an `IndexError`, and inline comments
are not stripped there (they leak into the parsed bindings). -/
theorem parse_tolerance_amended :
    (∀ l, pyStrip l = "" → parseInstructionEntry l = none) ∧
    (∀ l, pyStartsWith (pyStrip l) "#" = true → parseInstructionEntry l = none) ∧
    (∀ l cm, '#' ∉ l.data → parseInstructionEntry (l ++ "#" ++ cm) = parseInstructionEntry l) ∧
    (∀ l, ':' ∉ l.data → parseInstructionEntry l = none) ∧
    (∀ rest, parseInstructionEntry (":" ++ rest) = none ∧
      parseInstructionEntry ("*:" ++ rest) = none) ∧
    (∀ (resolveSub : String → List String → Except MangoErr (List ScriptInfo))
        (repo : String) (chain : List String) (l : String) (rest : List String),
      pyStrip l ≠ "" → pyStartsWith (pyStrip l) "#" = false →
      pyStartsWith (pyStrip l) "[" = false → ':' ∉ (pyStrip l).data →
      processLines resolveSub repo chain (l :: rest) = .error .indexError) ∧
    processLines (fun _ _ => .ok []) "R" [] ["a: x # c"] =
      .ok [ScriptInfo.mk [] "a" false ["x", "#", "c"]] :=
  ⟨parse_none_of_blank, parse_none_of_comment, parse_append_comment, parse_none_of_no_colon,
   parse_none_of_colon_lead, processLines_indexError, by decide⟩

/-- Closed witness for the C6 amended theorem on concrete lines. -/
theorem parse_tolerance_amended_witness :
    parseInstructionEntry "   " = none ∧
    parseInstructionEntry "  # note" = none ∧
    parseInstructionEntry ("x: a" ++ "#" ++ " tail") = parseInstructionEntry "x: a" ∧
    parseInstructionEntry "nocolon" = none ∧
    parseInstructionEntry (":" ++ " a b") = none ∧
    processLines (fun _ _ => .ok []) "R" [] ["foo", "x: y"] = .error .indexError :=
  ⟨parse_tolerance_amended.1 "   " (by decide),
   parse_tolerance_amended.2.1 "  # note" (by decide),
   parse_tolerance_amended.2.2.1 "x: a" " tail" (by decide),
   parse_tolerance_amended.2.2.2.1 "nocolon" (by decide),
   (parse_tolerance_amended.2.2.2.2.1 " a b").1,
   parse_tolerance_amended.2.2.2.2.2.1 (fun _ _ => .ok []) "R" [] "foo" ["x: y"]
     (by decide) (by decide) (by decide) (by decide)⟩

/-- C1 amended: a non-wildcard `exportSpec` is treated as one single
command name — the entire stripped text after the closing bracket, spaces
included.  Whatever the recursively resolved submodule yields, exactly the
bindings whose set contains that full string are re-emitted, re-aliased to
it as their only binding; all other submodule bindings are invisible at
the parent level. -/
theorem export_single_remaining_allowlist
    (resolveSub : String → List String → Except MangoErr (List ScriptInfo))
    (repo : String) (chain : List String) (items : List ScriptInfo)
    (h : resolveSub (osJoin (osJoin (osJoin repo ".mango") ".submodules") "lib")
      (chain ++ ["lib"]) = .ok items) :
    processLines resolveSub repo chain ["[lib] build test"] =
      .ok (items.filterMap (fun script =>
        if script.isBoundTo "build test" then
          some (ScriptInfo.mk script.virtual_submodule_path script.within_submodule_path
            script.source ["build test"])
        else none)) := by
  have step : processLines resolveSub repo chain ["[lib] build test"] =
      match resolveSub (osJoin (osJoin (osJoin repo ".mango") ".submodules") "lib")
        (chain ++ ["lib"]) with
      | .error e => .error e
      | .ok submodule_registry =>
        .ok ((submodule_registry.filterMap (fun script =>
          if script.isBoundTo "build test" then
            some (ScriptInfo.mk script.virtual_submodule_path script.within_submodule_path
              script.source ["build test"])
          else none)) ++ []) := rfl
  rw [step, h]
  simp

/-- Closed witness for the C1 amended theorem at a concrete submodule
registry. -/
theorem export_single_remaining_allowlist_witness :
    processLines (fun _ _ => .ok [ScriptInfo.mk ["lib"] "c.sh" false ["build test", "x"]])
      "R" [] ["[lib] build test"] =
      .ok [ScriptInfo.mk ["lib"] "c.sh" false ["build test"]] := by
  exact export_single_remaining_allowlist
    (fun _ _ => .ok [ScriptInfo.mk ["lib"] "c.sh" false ["build test", "x"]])
    "R" [] [ScriptInfo.mk ["lib"] "c.sh" false ["build test", "x"]] rfl

/-- C2 amended: a directive naming a submodule whose directory (or nested
bindings file) is absent does not contribute zero bindings silently —
`getRegisteredItems` raises `FileNotFoundError` for the nested
`.instructions` path, aborting resolution of the remaining lines. -/
theorem missing_submodule_raises_fileNotFound
    (fs : FS) (fuel : Nat) (repo : String) (chain : List String) (restLines : List String)
    (hroot : fs (osJoin (osJoin repo ".mango") ".instructions") =
      some ("[ghost] *" :: restLines))
    (hsub : fs (osJoin (osJoin (osJoin (osJoin (osJoin repo ".mango") ".submodules") "ghost")
      ".mango") ".instructions") = none) :
    getRegisteredItems fs (fuel + 2) repo chain =
      .error (.fileNotFound (osJoin (osJoin (osJoin (osJoin (osJoin repo ".mango")
        ".submodules") "ghost") ".mango") ".instructions")) := by
  show getRegisteredItems fs (fuel + 1 + 1) repo chain = _
  simp only [getRegisteredItems, hroot]
  have step : ∀ resolveSub, processLines resolveSub repo chain ("[ghost] *" :: restLines) =
      match resolveSub (osJoin (osJoin (osJoin repo ".mango") ".submodules") "ghost")
        (chain ++ ["ghost"]) with
      | .error e => .error e
      | .ok submodule_registry =>
        match processLines resolveSub repo chain restLines with
        | .error e => .error e
        | .ok restScripts => .ok (submodule_registry ++ restScripts) :=
    fun _ => rfl
  rw [step]
  simp [hsub]

/-- Closed witness for the C2 amended theorem on the concrete ghost
scenario. -/
theorem missing_submodule_raises_fileNotFound_witness :
    getRegisteredItems fsGhost 2 "R" [] =
      .error (.fileNotFound "R/.mango/.submodules/ghost/.mango/.instructions") := by
  exact missing_submodule_raises_fileNotFound fsGhost 0 "R" [] ["s.sh: a"] rfl rfl

theorem pySplitOnChar_joinC : ∀ (names : List String), names ≠ [] →
    (∀ n ∈ names, ':' ∉ n.data) → pySplitOnChar ':' (joinC names) = names
  | [], h, _ => absurd rfl h
  | [s], _, hn => by
    have : ':' ∉ s.data := hn s (List.mem_singleton_self s)
    simp [pySplitOnChar, joinC, splitChar_of_no_sep this, mk_data_eta]
  | s :: t :: r, _, hn => by
    have hs : ':' ∉ s.data := hn s (List.mem_cons_self _ _)
    have hdata : (joinC (s :: t :: r)).data = s.data ++ ':' :: (joinC (t :: r)).data := by
      show ((s ++ ":") ++ joinC (t :: r)).data = _
      simp [String.data_append]
    have ih := pySplitOnChar_joinC (t :: r) (by simp)
      (fun n hm => hn n (List.mem_cons_of_mem _ hm))
    unfold pySplitOnChar
    rw [hdata, splitChar_append _ hs]
    simpa [pySplitOnChar, mk_data_eta] using ih

/-- C9 counterexample: resolving the empty submodule chain does not yield
the repository root — Python splits the empty string into one empty name,
so one `.mango/.submodules/<empty>` segment triple is still appended. -/
theorem mapSubmodulePath_empty_counterexample :
    mapSubmodulePath "" "." = "./.mango/.submodules/" ∧
    ("./.mango/.submodules/" : String) ≠ "." := by
  exact ⟨by decide, by decide⟩

/-- C9 amended: `mapSubmodulePath` is a pure function of the chain string
and the base path; for every name of a nonempty colon-joined chain it
appends the fixed segment triple (`.mango`, `.submodules`, name) with no
existence check, but the empty chain splits into one empty name, so it
resolves to `base/.mango/.submodules/` (with a trailing empty segment)
rather than to the repository root itself. -/
theorem mapSubmodulePath_chain_amended :
    (∀ base, mapSubmodulePath "" base =
      osJoin (osJoin (osJoin base ".mango") ".submodules") "") ∧
    (∀ (names : List String) (base : String), names ≠ [] →
      (∀ n ∈ names, ':' ∉ n.data) →
      mapSubmodulePath (joinC names) base =
        names.foldl (fun path submodule =>
          osJoin (osJoin (osJoin path ".mango") ".submodules") submodule) base) := by
  constructor
  · intro base
    rfl
  · intro names base hne hnc
    unfold mapSubmodulePath
    rw [pySplitOnChar_joinC names hne hnc]

/-- Closed witness for the C9 amended theorem on the chain `a:b`. -/
theorem mapSubmodulePath_chain_amended_witness :
    mapSubmodulePath "a:b" "R" = "R/.mango/.submodules/a/.mango/.submodules/b" := by
  have h := mapSubmodulePath_chain_amended.2 ["a", "b"] "R" (by decide) (by decide)
  rw [show joinC ["a", "b"] = "a:b" from rfl] at h
  rw [h]
  decide
